import Mathlib

/-!
A verification development for the sunrise/sunset calculator in `src/main.rs`.

The program is a pure numeric pipeline over `f64`:
`get_sunrise_sunset` chains the NOAA/Wikipedia solar-position formulas, and
`julian2datetime` converts a fractional Julian day number to a local calendar
date-time.  We embed the `f64` arithmetic over `ℝ` (exact real arithmetic; the
Rust `%` operator on floats is modelled by `rrem`, truncation casts by
`rtrunc`), and model the NaN-producing paths with an `Option ℝ` value type
(`none` = NaN) following IEEE propagation and Rust's saturating casts.
Date-time values from `chrono` are modelled at the instant level: an absolute
count of seconds together with a fixed host UTC offset.
-/

open Real Set

/-! ### Integer date/time model (`chrono` types at second granularity) -/

/-- A `chrono` `DateTime<Local>`-style value: the absolute instant, in seconds
since the UTC midnight of the civil date of Julian day number 0, together with
the host's (fixed) local UTC offset in seconds.  Converting `DateTime<Utc>` to
`DateTime<Local>` keeps the instant and attaches the offset. -/
structure LocalDT where
  instant : ℤ
  tzoff : ℤ
deriving DecidableEq

/-- `chrono` `NaiveTime::from_hms_opt`: seconds since midnight when the
hour/minute/second components are in range, otherwise `none`. -/
def from_hms_opt (h m s : ℤ) : Option ℤ :=
  if 0 ≤ h ∧ h ≤ 23 ∧ 0 ≤ m ∧ m ≤ 59 ∧ 0 ≤ s ∧ s ≤ 59 then
    some (3600 * h + 60 * m + s)
  else
    none

/-- `chrono` `TimeDelta::num_seconds` for a whole-second duration. -/
def num_seconds (t : ℤ) : ℤ := t

/-- `chrono` `TimeDelta::num_minutes`: total whole minutes of the duration
(Rust `i64` division truncates toward zero, hence `Int.tdiv`). -/
def num_minutes (t : ℤ) : ℤ := Int.tdiv (num_seconds t) 60

/-- `chrono` `TimeDelta::num_hours`: total whole hours of the duration. -/
def num_hours (t : ℤ) : ℤ := Int.tdiv (num_seconds t) 3600

/-- The three numbers printed on the `Sun length: {}h, {}m, {}s` line of
`main`: for `len = b - a` they are `len.num_hours()`,
`len.num_minutes() - len.num_hours() * 60` and
`len.num_seconds() - len.num_minutes() * 60`. -/
def sun_length_hms (a b : LocalDT) : ℤ × ℤ × ℤ :=
  let len := b.instant - a.instant
  (num_hours len, num_minutes len - num_hours len * 60,
    num_seconds len - num_minutes len * 60)

/-! ### Real-valued model of `f64` scalar operations -/

noncomputable section

/-- Truncation of a real number toward zero, as performed by Rust float-to-int
`as` casts (for in-range finite values). -/
def rtrunc (x : ℝ) : ℤ := if 0 ≤ x then ⌊x⌋ else ⌈x⌉

/-- Rust's `%` on `f64` (`fmod`): `x - y * trunc (x / y)`; the result carries
the sign of the dividend `x`. -/
def rrem (x y : ℝ) : ℝ := x - y * rtrunc (x / y)

/-- Rust `f64::to_radians`: `self * (PI / 180.0)`. -/
def toRadians (x : ℝ) : ℝ := x * (π / 180)

/-- Rust `f64::to_degrees`: `self * (180.0 / PI)`. -/
def toDegrees (x : ℝ) : ℝ := x * (180 / π)

/-! ### The solar position calculator (`src/main.rs`, lines 25–80) -/

/-- `mean_solar_time` from `src/main.rs`. -/
def mean_solar_time (n long : ℝ) : ℝ := n - long / 360

/-- `solar_mean_anomaly` from `src/main.rs`. -/
def solar_mean_anomaly (j_star : ℝ) : ℝ := rrem (357.5291 + 0.98560028 * j_star) 360

/-- `normalized_date` from `src/main.rs` (`f64::ceil` returns a real value;
we express it through `Int.ceil`). -/
def normalized_date (j_date : ℝ) : ℝ := ((⌈j_date - 2451545.0 + 0.0008⌉ : ℤ) : ℝ)

/-- `equation_of_the_center` from `src/main.rs`. -/
def equation_of_the_center (m : ℝ) : ℝ :=
  let m_rad := toRadians m
  1.9148 * sin m_rad + 0.02 * sin (2 * m_rad) + 0.0003 * sin (3 * m_rad)

/-- `ecliptic_longitude` from `src/main.rs`. -/
def ecliptic_longitude (m c : ℝ) : ℝ := rrem (m + c + 180 + 102.9372) 360

/-- `declination_of_the_sun` from `src/main.rs`. -/
def declination_of_the_sun (lambda : ℝ) : ℝ :=
  toDegrees (arcsin (sin (toRadians lambda) * sin (toRadians 23.4397)))

/-- The argument passed to `acos` inside `hour_angle`. -/
def hour_angle_arg (lat delta : ℝ) : ℝ :=
  (sin (toRadians (-0.833)) - sin (toRadians lat) * sin (toRadians delta)) /
    (cos (toRadians lat) * cos (toRadians delta))

/-- `hour_angle` from `src/main.rs`. -/
def hour_angle (lat delta : ℝ) : ℝ := toDegrees (arccos (hour_angle_arg lat delta))

/-- `transit` from `src/main.rs`. -/
def transit (j_star m lambda : ℝ) : ℝ :=
  2451545.0 + j_star + 0.0053 * sin (toRadians m) - 0.0069 * sin (toRadians (2 * lambda))

/-- `get_sunrise_sunset` from `src/main.rs`. -/
def get_sunrise_sunset (lat long today : ℝ) : ℝ × ℝ :=
  let n := normalized_date today
  let j_star := mean_solar_time n long
  let m := solar_mean_anomaly j_star
  let c := equation_of_the_center m
  let lambda := ecliptic_longitude m c
  let delta := declination_of_the_sun lambda
  let omega_0 := hour_angle lat delta
  let j_transit := transit j_star m lambda
  (j_transit - omega_0 / 360, j_transit + omega_0 / 360)

/-- `get_sunrise_sunset` together with the values passed to the `info!`
diagnostic-logging calls, in program order.  The function's result is the
first component; the log is a pure by-product. -/
def get_sunrise_sunset_logged (lat long today : ℝ) : (ℝ × ℝ) × List ℝ :=
  let n := normalized_date today
  let j_star := mean_solar_time n long
  let m := solar_mean_anomaly j_star
  let c := equation_of_the_center m
  let lambda := ecliptic_longitude m c
  let delta := declination_of_the_sun lambda
  let omega_0 := hour_angle lat delta
  let j_transit := transit j_star m lambda
  ((j_transit - omega_0 / 360, j_transit + omega_0 / 360),
    [n, j_star, m, c, lambda, delta, omega_0, j_transit])

/-! Named stages of the chain, as functions of the calculator's inputs. -/

/-- The `j_star` intermediate of `get_sunrise_sunset`. -/
def j_star_of (long today : ℝ) : ℝ := mean_solar_time (normalized_date today) long

/-- The `m` intermediate of `get_sunrise_sunset`. -/
def m_of (long today : ℝ) : ℝ := solar_mean_anomaly (j_star_of long today)

/-- The `c` intermediate of `get_sunrise_sunset`. -/
def c_of (long today : ℝ) : ℝ := equation_of_the_center (m_of long today)

/-- The `lambda` intermediate of `get_sunrise_sunset`. -/
def lambda_of (long today : ℝ) : ℝ := ecliptic_longitude (m_of long today) (c_of long today)

/-- The `delta` intermediate of `get_sunrise_sunset`. -/
def delta_of (long today : ℝ) : ℝ := declination_of_the_sun (lambda_of long today)

/-- The `j_transit` intermediate of `get_sunrise_sunset`. -/
def transit_of (long today : ℝ) : ℝ :=
  transit (j_star_of long today) (m_of long today) (lambda_of long today)

/-- The `acos` argument inside `hour_angle` as a function of the calculator's
three inputs. -/
def acos_arg (lat long today : ℝ) : ℝ := hour_angle_arg lat (delta_of long today)

/-! ### NaN-tracking model of the `f64` paths that can produce NaN

An `f64` is modelled as `Option ℝ`: `some x` is a finite value, `none` is NaN.
Infinities do not arise on the modelled paths (the only division, inside
`hour_angle`, is mapped directly to NaN when its real counterpart is
unavailable, i.e. when the denominator vanishes or `acos` leaves its domain,
exactly the situations in which the Rust expression produces NaN). -/

/-- An `f64` value: a finite real number or NaN. -/
abbrev F64 := Option ℝ

/-- IEEE `floor`; NaN propagates. -/
def ffloor : F64 → F64 := Option.map fun x => ((⌊x⌋ : ℤ) : ℝ)

/-- IEEE subtraction of finite values; NaN propagates. -/
def fsub (a b : F64) : F64 := a.bind fun x => b.map fun y => x - y

/-- IEEE multiplication by a finite constant; NaN propagates. -/
def fmul (a : F64) (c : ℝ) : F64 := a.map fun x => x * c

/-- Rust `as i32` on an `f64`: truncation toward zero; NaN casts to 0
(the saturation at the `i32` range bounds is not modelled). -/
def cast_i32 (a : F64) : ℤ := a.elim 0 rtrunc

/-- Rust `as u32` on an `f64`: truncation toward zero; NaN and negative
values cast to 0 (saturation at the upper `u32` bound is not modelled). -/
def cast_u32 (a : F64) : ℤ := a.elim 0 fun x => max 0 (rtrunc x)

/-- NaN-aware `hour_angle`: the Rust expression yields NaN exactly when the
denominator `cos(rlat) * cos(rdel)` is zero (giving `acos` of `±∞` or of
`0/0 = NaN`) or when the quotient falls outside `acos`'s domain `[-1, 1]`. -/
def hour_angleF (lat delta : ℝ) : F64 :=
  let den := cos (toRadians lat) * cos (toRadians delta)
  let x := (sin (toRadians (-0.833)) - sin (toRadians lat) * sin (toRadians delta)) / den
  if den ≠ 0 ∧ -1 ≤ x ∧ x ≤ 1 then some (toDegrees (arccos x)) else none

/-- NaN-aware `get_sunrise_sunset`: every stage before `hour_angle` maps
finite inputs to finite values (sums, products, `sin`, `asin`, `acos`
compositions never produce NaN there), so only the hour angle `omega_0`
carries an optional NaN, which the final additions propagate. -/
def get_sunrise_sunsetF (lat long today : ℝ) : F64 × F64 :=
  let j_transit := transit_of long today
  match hour_angleF lat (delta_of long today) with
  | none => (none, none)
  | some w => (some (j_transit - w / 360), some (j_transit + w / 360))

/-! ### `julian2datetime` (`src/main.rs`, lines 7–23)

External crate calls are modelled at the instant level:
`Calendar::GREGORIAN.at_jdn(d)` followed by `NaiveDate::try_from(..).unwrap()`
produces the Gregorian civil date of Julian day number `d`, and
`NaiveDateTime::new(date, time)` then denotes the instant
`86400 * d + (seconds of time)` on our axis (seconds since the UTC midnight
of the civil date of JDN 0); the Gregorian year/month/day decomposition and
its recomposition cancel on instants.  `checked_sub_days(Days::new(1))` moves
a `DateTime<Local>` to the previous calendar day at the same wall-clock time,
which under a fixed offset is an instant shift of `-86400` seconds. -/

/-- `julian2datetime` from `src/main.rs`, on NaN-tracking inputs.  `none`
(NaN) is never rejected: `NaN.floor()` is NaN, the `as i32` and `as u32`
casts turn NaN into 0, and the construction proceeds. -/
def julian2datetime (tz : ℤ) (j : F64) : Option LocalDT :=
  let d : ℤ := cast_i32 (ffloor j)
  let rem0 := fmul (fsub j (ffloor j)) 24
  let h := ffloor rem0
  let rem1 := fmul (fsub rem0 h) 60
  let m := ffloor rem1
  let rem2 := fmul (fsub rem1 m) 60
  let s := ffloor rem2
  (from_hms_opt (cast_u32 h) (cast_u32 m) (cast_u32 s)).map fun t =>
    let utc : ℤ := 86400 * d + t
    let localdt : LocalDT := ⟨utc, tz⟩
    let shifted : LocalDT := ⟨localdt.instant + 12 * 3600, localdt.tzoff⟩
    ⟨shifted.instant - 86400, shifted.tzoff⟩

/-! ### Specification-side definitions

These re-state, word for word, the chains described by the specification; the
refinement theorems below compare them with the source-derived definitions. -/

/-- Hour component specified for `julian2datetime`:
`h = floor(frac * 24)` where `frac` is the fractional part of `j`. -/
def hpart (j : ℝ) : ℤ := ⌊(j - ⌊j⌋) * 24⌋

/-- Minute component specified for `julian2datetime`: the remainder after
removing `h`, times 60, floored. -/
def mpart (j : ℝ) : ℤ := ⌊((j - ⌊j⌋) * 24 - (hpart j : ℝ)) * 60⌋

/-- Second component specified for `julian2datetime`: the remainder after
removing `m`, times 60, floored (truncating, not rounding). -/
def spart (j : ℝ) : ℤ :=
  ⌊(((j - ⌊j⌋) * 24 - (hpart j : ℝ)) * 60 - (mpart j : ℝ)) * 60⌋

/-- The date-time specified for `julian2datetime`: the Gregorian calendar
date of `floor(j)` (instant `86400 * ⌊j⌋` at UTC midnight), plus the
`h`/`m`/`s` time of day, interpreted as UTC, converted to the host's local
offset (same instant, offset attached), then shifted forward 12 hours and
back one calendar day, in that order. -/
def julian2datetime_spec (tz : ℤ) (j : ℝ) : LocalDT :=
  ⟨86400 * ⌊j⌋ + (3600 * hpart j + 60 * mpart j + spart j) + 12 * 3600 - 86400, tz⟩

/-- The calculator chain exactly as the specification words it (steps 1–9 of
§4.1, with the spec's degree/radian conversion conventions). -/
def get_sunrise_sunset_spec (lat long today : ℝ) : ℝ × ℝ :=
  let n : ℝ := ((⌈today - 2451545.0 + 0.0008⌉ : ℤ) : ℝ)
  let j_star : ℝ := n - long / 360
  let m : ℝ := rrem (357.5291 + 0.98560028 * j_star) 360
  let c : ℝ :=
    1.9148 * sin (toRadians m) + 0.02 * sin (2 * toRadians m) + 0.0003 * sin (3 * toRadians m)
  let lambda : ℝ := rrem (m + c + 180 + 102.9372) 360
  let delta : ℝ := toDegrees (arcsin (sin (toRadians lambda) * sin (toRadians 23.4397)))
  let omega_0 : ℝ :=
    toDegrees (arccos ((sin (toRadians (-0.833)) - sin (toRadians lat) * sin (toRadians delta)) /
      (cos (toRadians lat) * cos (toRadians delta))))
  let j_transit : ℝ := 2451545.0 + j_star + 0.0053 * sin (toRadians m) -
    0.0069 * sin (toRadians (2 * lambda))
  (j_transit - omega_0 / 360, j_transit + omega_0 / 360)

end

/-! ### Helper lemmas about the embedded scalar operations -/

theorem rtrunc_intCast (n : ℤ) : rtrunc (n : ℝ) = n := by
  unfold rtrunc
  split <;> simp

theorem rtrunc_of_nonneg {x : ℝ} (h : 0 ≤ x) : rtrunc x = ⌊x⌋ := if_pos h

theorem rtrunc_of_neg {x : ℝ} (h : x < 0) : rtrunc x = ⌈x⌉ := if_neg (not_le.2 h)

theorem rrem_eq_self {x y : ℝ} (h0 : 0 ≤ x) (hxy : x < y) : rrem x y = x := by
  have hy : 0 < y := lt_of_le_of_lt h0 hxy
  have h1 : 0 ≤ x / y := div_nonneg h0 hy.le
  have h2 : x / y < 1 := (div_lt_one hy).2 hxy
  have h3 : ⌊x / y⌋ = 0 := Int.floor_eq_zero_iff.2 ⟨h1, h2⟩
  unfold rrem
  rw [rtrunc_of_nonneg h1, h3]
  push_cast
  ring

theorem rrem_shift_one {x y : ℝ} (hy : 0 < y) (h0 : y ≤ x) (hxy : x < 2 * y) :
    rrem x y = x - y := by
  have h1 : (1 : ℝ) ≤ x / y := (le_div_iff₀ hy).2 (by linarith)
  have h2 : x / y < 2 := (div_lt_iff₀ hy).2 (by linarith)
  have h3 : ⌊x / y⌋ = 1 := Int.floor_eq_iff.2 ⟨by push_cast; linarith, by push_cast; linarith⟩
  unfold rrem
  rw [rtrunc_of_nonneg (by linarith), h3]
  push_cast
  ring

theorem rrem_neg_keep {x y : ℝ} (hy : 0 < y) (hx : x < 0) (hxy : -y < x) : rrem x y = x := by
  have h1 : x / y < 0 := div_neg_of_neg_of_pos hx hy
  have h2 : -1 < x / y := by
    rw [neg_lt, ← neg_div]
    exact (div_lt_one hy).2 (by linarith)
  have h3 : ⌈x / y⌉ = 0 := Int.ceil_eq_zero_iff.2 ⟨h2, h1.le⟩
  unfold rrem
  rw [rtrunc_of_neg h1, h3]
  push_cast
  ring

theorem rrem_neg_shift {x y : ℝ} (hy : 0 < y) (hx : x ≤ -y) (hxy : -(2 * y) < x) :
    rrem x y = x + y := by
  have hx0 : x < 0 := lt_of_le_of_lt hx (by linarith)
  have h1 : x / y ≤ -1 := by
    rw [div_le_iff₀ hy]
    linarith
  have h2 : (-1 : ℝ) - 1 < x / y := by
    rw [lt_div_iff₀ hy]
    linarith
  have h3 : ⌈x / y⌉ = -1 := Int.ceil_eq_iff.2 ⟨by push_cast; linarith, by push_cast; linarith⟩
  unfold rrem
  rw [rtrunc_of_neg (by linarith), h3]
  push_cast
  ring

theorem rrem_nonneg_mem {x y : ℝ} (hy : 0 < y) (h0 : 0 ≤ x) : rrem x y ∈ Ico (0 : ℝ) y := by
  have h1 : 0 ≤ x / y := div_nonneg h0 hy.le
  have hfl : (⌊x / y⌋ : ℝ) ≤ x / y := Int.floor_le _
  have hfu : x / y < (⌊x / y⌋ : ℝ) + 1 := Int.lt_floor_add_one _
  have hx : x = y * (x / y) := (mul_div_cancel₀ x hy.ne').symm
  unfold rrem
  rw [rtrunc_of_nonneg h1]
  constructor
  · nlinarith
  · nlinarith

theorem rrem_neg_mem {x y : ℝ} (hy : 0 < y) (hx : x < 0) : rrem x y ∈ Ioc (-y) (0 : ℝ) := by
  have h1 : x / y < 0 := div_neg_of_neg_of_pos hx hy
  have hcl : (⌈x / y⌉ : ℝ) - 1 < x / y := by
    have := Int.ceil_lt_add_one (x / y)
    linarith
  have hcu : x / y ≤ (⌈x / y⌉ : ℝ) := Int.le_ceil _
  have hxe : x = y * (x / y) := (mul_div_cancel₀ x hy.ne').symm
  unfold rrem
  rw [rtrunc_of_neg h1]
  constructor
  · nlinarith
  · nlinarith

theorem tdiv_eq_ediv_of_nonneg {a b : ℤ} (ha : 0 ≤ a) (hb : 0 ≤ b) : a.tdiv b = a / b := by
  lift a to ℕ using ha
  lift b to ℕ using hb
  rfl

/-! ### Structural lemmas about the calculator -/

theorem get_sunrise_sunset_eq_transit (lat long today : ℝ) :
    get_sunrise_sunset lat long today =
      (transit_of long today - hour_angle lat (delta_of long today) / 360,
        transit_of long today + hour_angle lat (delta_of long today) / 360) := rfl

/-- C1: for every latitude, longitude and Julian day number, `get_sunrise_sunset`
computes exactly the specified chain `n`, `j_star`, `m`, `c`, `λ`, `δ`, `ω₀`,
`j_transit` and returns `(j_transit - ω₀/360, j_transit + ω₀/360)`. -/
theorem c1_formula_chain (lat long today : ℝ) :
    get_sunrise_sunset lat long today = get_sunrise_sunset_spec lat long today := rfl

/-- C9: the returned pair is exactly symmetric about the transit:
`j_rise + j_set = 2 * j_transit`. -/
theorem c9_rise_set_symmetric (lat long today : ℝ) :
    (get_sunrise_sunset lat long today).1 + (get_sunrise_sunset lat long today).2 =
      2 * transit_of long today := by
  rw [get_sunrise_sunset_eq_transit]
  ring

/-- C5: `get_sunrise_sunset` is deterministic — it is a pure function of its
three arguments, so repeated calls agree — and the variant that additionally
returns the diagnostically logged intermediate values computes the same
result. -/
theorem c5_deterministic_and_log_free (lat long today : ℝ) :
    (get_sunrise_sunset_logged lat long today).1 = get_sunrise_sunset lat long today ∧
      get_sunrise_sunset lat long today = get_sunrise_sunset lat long today :=
  ⟨rfl, rfl⟩

/-- C6: for `set ≥ rise`, the printed `H`/`M`/`S` values satisfy
`H*3600 + M*60 + S = total whole seconds` with `M, S ∈ [0, 59]`. -/
theorem c6_sun_length_decomposition (a b : LocalDT) (hab : a.instant ≤ b.instant) :
    (sun_length_hms a b).1 * 3600 + (sun_length_hms a b).2.1 * 60 + (sun_length_hms a b).2.2 =
        num_seconds (b.instant - a.instant) ∧
      0 ≤ (sun_length_hms a b).2.1 ∧ (sun_length_hms a b).2.1 ≤ 59 ∧
      0 ≤ (sun_length_hms a b).2.2 ∧ (sun_length_hms a b).2.2 ≤ 59 := by
  have ht : 0 ≤ b.instant - a.instant := by omega
  simp only [sun_length_hms, num_hours, num_minutes, num_seconds,
    tdiv_eq_ediv_of_nonneg ht (by norm_num : (0 : ℤ) ≤ 3600),
    tdiv_eq_ediv_of_nonneg ht (by norm_num : (0 : ℤ) ≤ 60)]
  omega

/-- Witness for C6 at the concrete pair `rise = ⟨0, 0⟩`, `set = ⟨3661, 0⟩`
(a duration of 1 h 1 m 1 s). -/
theorem c6_sun_length_decomposition_witness :
    (sun_length_hms ⟨0, 0⟩ ⟨3661, 0⟩).1 * 3600 + (sun_length_hms ⟨0, 0⟩ ⟨3661, 0⟩).2.1 * 60 +
          (sun_length_hms ⟨0, 0⟩ ⟨3661, 0⟩).2.2 =
        num_seconds ((3661 : ℤ) - 0) ∧
      0 ≤ (sun_length_hms ⟨0, 0⟩ ⟨3661, 0⟩).2.1 ∧ (sun_length_hms ⟨0, 0⟩ ⟨3661, 0⟩).2.1 ≤ 59 ∧
      0 ≤ (sun_length_hms ⟨0, 0⟩ ⟨3661, 0⟩).2.2 ∧ (sun_length_hms ⟨0, 0⟩ ⟨3661, 0⟩).2.2 ≤ 59 :=
  c6_sun_length_decomposition ⟨0, 0⟩ ⟨3661, 0⟩ (by decide)

/-- C7 counterexample: with a negative dividend the Rust `%` returns a
negative value, so neither function's result lies in `[0, 360)` at these
inputs: `solar_mean_anomaly (-1000) = -268.07118` and
`ecliptic_longitude (-600) 0 = -317.0628`. -/
theorem c7_mod_counterexample :
    solar_mean_anomaly (-1000) < 0 ∧ ecliptic_longitude (-600) 0 < 0 := by
  constructor
  · unfold solar_mean_anomaly
    have h1 : (357.5291 + 0.98560028 * (-1000 : ℝ)) = -628.07118 := by norm_num
    have h2 : rrem (-628.07118 : ℝ) 360 = -628.07118 + 360 :=
      rrem_neg_shift (by norm_num) (by norm_num) (by norm_num)
    rw [h1, h2]
    norm_num
  · unfold ecliptic_longitude
    have h1 : ((-600 : ℝ) + 0 + 180 + 102.9372) = -317.0628 := by norm_num
    have h2 : rrem (-317.0628 : ℝ) 360 = -317.0628 :=
      rrem_neg_keep (by norm_num) (by norm_num) (by norm_num)
    rw [h1, h2]
    norm_num

/-- C7 amended: `solar_mean_anomaly` and `ecliptic_longitude` compute their
formulas with Rust's `%` (the remainder carries the dividend's sign): the
result lies in `[0, 360)` whenever the dividend is nonnegative and in
`(-360, 0]` when it is negative. -/
theorem c7_amended_rem_semantics (x c : ℝ) :
    solar_mean_anomaly x = rrem (357.5291 + 0.98560028 * x) 360 ∧
      ecliptic_longitude x c = rrem (x + c + 180 + 102.9372) 360 ∧
      (0 ≤ 357.5291 + 0.98560028 * x → solar_mean_anomaly x ∈ Ico (0 : ℝ) 360) ∧
      (357.5291 + 0.98560028 * x < 0 → solar_mean_anomaly x ∈ Ioc (-360 : ℝ) 0) ∧
      (0 ≤ x + c + 180 + 102.9372 → ecliptic_longitude x c ∈ Ico (0 : ℝ) 360) ∧
      (x + c + 180 + 102.9372 < 0 → ecliptic_longitude x c ∈ Ioc (-360 : ℝ) 0) := by
  refine ⟨rfl, rfl, ?_, ?_, ?_, ?_⟩
  · intro h
    exact rrem_nonneg_mem (by norm_num) h
  · intro h
    exact rrem_neg_mem (by norm_num) h
  · intro h
    exact rrem_nonneg_mem (by norm_num) h
  · intro h
    exact rrem_neg_mem (by norm_num) h

/-- Witness for the amended C7 at `x = 0`, `c = 0`, where both dividends are
nonnegative. -/
theorem c7_amended_rem_semantics_witness :
    solar_mean_anomaly 0 ∈ Ico (0 : ℝ) 360 ∧ ecliptic_longitude 0 0 ∈ Ico (0 : ℝ) 360 :=
  ⟨(c7_amended_rem_semantics 0 0).2.2.1 (by norm_num),
    (c7_amended_rem_semantics 0 0).2.2.2.2.1 (by norm_num)⟩

/-! ### Lemmas about `julian2datetime` -/

theorem hpart_eq (j : ℝ) : hpart j = ⌊Int.fract j * 24⌋ := by
  unfold hpart
  rw [Int.self_sub_floor]

theorem mpart_eq (j : ℝ) : mpart j = ⌊Int.fract (Int.fract j * 24) * 60⌋ := by
  unfold mpart hpart
  rw [Int.self_sub_floor, Int.self_sub_floor]

theorem spart_eq (j : ℝ) :
    spart j = ⌊Int.fract (Int.fract (Int.fract j * 24) * 60) * 60⌋ := by
  unfold spart mpart hpart
  rw [Int.self_sub_floor, Int.self_sub_floor, Int.self_sub_floor]

theorem floor_fract_mul_nonneg (x B : ℝ) (hB : 0 ≤ B) : 0 ≤ ⌊Int.fract x * B⌋ :=
  Int.floor_nonneg.2 (mul_nonneg (Int.fract_nonneg x) hB)

theorem floor_fract_mul_lt (x B : ℝ) (hB : 0 < B) (z : ℤ) (hz : B ≤ (z : ℝ)) :
    ⌊Int.fract x * B⌋ < z := by
  apply Int.floor_lt.2
  have h1 : Int.fract x * B < 1 * B :=
    mul_lt_mul_of_pos_right (Int.fract_lt_one x) hB
  linarith

theorem hpart_mem (j : ℝ) : 0 ≤ hpart j ∧ hpart j ≤ 23 := by
  rw [hpart_eq]
  refine ⟨floor_fract_mul_nonneg j 24 (by norm_num), ?_⟩
  have := floor_fract_mul_lt j 24 (by norm_num) 24 (by norm_num)
  omega

theorem mpart_mem (j : ℝ) : 0 ≤ mpart j ∧ mpart j ≤ 59 := by
  rw [mpart_eq]
  refine ⟨floor_fract_mul_nonneg _ 60 (by norm_num), ?_⟩
  have := floor_fract_mul_lt (Int.fract j * 24) 60 (by norm_num) 60 (by norm_num)
  omega

theorem spart_mem (j : ℝ) : 0 ≤ spart j ∧ spart j ≤ 59 := by
  rw [spart_eq]
  refine ⟨floor_fract_mul_nonneg _ 60 (by norm_num), ?_⟩
  have := floor_fract_mul_lt (Int.fract (Int.fract j * 24) * 60) 60 (by norm_num) 60 (by norm_num)
  omega

theorem from_hms_opt_eval (j : ℝ) :
    from_hms_opt (hpart j) (mpart j) (spart j) =
      some (3600 * hpart j + 60 * mpart j + spart j) := by
  unfold from_hms_opt
  rw [if_pos]
  exact ⟨(hpart_mem j).1, (hpart_mem j).2, (mpart_mem j).1, (mpart_mem j).2,
    (spart_mem j).1, (spart_mem j).2⟩

theorem julian2datetime_some (tz : ℤ) (j : ℝ) :
    julian2datetime tz (some j) = some (julian2datetime_spec tz j) := by
  have hh := hpart_mem j
  have hm := mpart_mem j
  have hs := spart_mem j
  unfold hpart at hh
  unfold mpart hpart at hm
  unfold spart mpart hpart at hs
  unfold julian2datetime julian2datetime_spec spart mpart hpart ffloor fsub fmul cast_i32
    cast_u32 from_hms_opt
  simp only [Option.map_some', Option.some_bind, Option.elim]
  rw [rtrunc_intCast, rtrunc_intCast, rtrunc_intCast, rtrunc_intCast]
  rw [max_eq_right hh.1, max_eq_right hm.1, max_eq_right hs.1]
  rw [if_pos ⟨hh.1, hh.2, hm.1, hm.2, hs.1, hs.2⟩]
  simp only [Option.map_some']

/-- C4: for every input `j` (whose fractional part `j - ⌊j⌋` lies in `[0, 1)`
by construction), the hour/minute/second decomposition inside
`julian2datetime` yields `h ∈ [0, 23]`, `m ∈ [0, 59]`, `s ∈ [0, 59]`, so the
`NaiveTime` construction succeeds and the `unwrap` on it never panics. -/
theorem c4_components_in_range (tz : ℤ) (j : ℝ) :
    (0 ≤ hpart j ∧ hpart j ≤ 23) ∧ (0 ≤ mpart j ∧ mpart j ≤ 59) ∧
      (0 ≤ spart j ∧ spart j ≤ 59) ∧
      (from_hms_opt (hpart j) (mpart j) (spart j)).isSome = true ∧
      (julian2datetime tz (some j)).isSome = true := by
  refine ⟨hpart_mem j, mpart_mem j, spart_mem j, ?_, ?_⟩
  · rw [from_hms_opt_eval]
    rfl
  · rw [julian2datetime_some]
    rfl

/-- C3: `julian2datetime` takes the Gregorian calendar date of `⌊j⌋`,
decomposes the fractional part into `h`/`m`/`s` by successive
floor-and-remainder extraction, interprets the result as UTC, converts it to
the host's local offset, then adds 12 hours and subtracts one calendar day,
in that order. -/
theorem c3_julian2datetime_structure (tz : ℤ) (j : ℝ) :
    julian2datetime tz (some j) = some (julian2datetime_spec tz j) :=
  julian2datetime_some tz j

/-- C10: `julian2datetime` does not reject NaN: the NaN input casts to day 0
with time 00:00:00, and the function returns the well-formed local date-time
obtained from Julian day number 0 at midnight, rebased by +12 h and −1 day
(instant `-43200` s on our axis) — exactly what it returns for `j = 0`. -/
theorem c10_nan_rendered_as_date (tz : ℤ) :
    julian2datetime tz none = some ⟨-43200, tz⟩ ∧
      julian2datetime tz none = julian2datetime tz (some 0) := by
  have hnone : julian2datetime tz none = some ⟨-43200, tz⟩ := by
    unfold julian2datetime ffloor fsub fmul cast_i32 cast_u32 from_hms_opt
    norm_num
  refine ⟨hnone, ?_⟩
  rw [hnone, julian2datetime_some]
  unfold julian2datetime_spec
  have h0 : hpart 0 = 0 := by
    unfold hpart
    norm_num
  have m0 : mpart 0 = 0 := by
    unfold mpart hpart
    norm_num
  have s0 : spart 0 = 0 := by
    unfold spart mpart hpart
    norm_num
  rw [h0, m0, s0]
  norm_num

/-- C8: when the `acos` argument in `hour_angle` is unavailable as a real
number — the denominator vanishes (Rust: division yields `±∞` or `0/0 = NaN`)
or the quotient falls outside `[-1, 1]` — `hour_angle` returns NaN rather
than panicking, and `get_sunrise_sunset` returns `(NaN, NaN)`: the NaN
propagates silently through `j_rise` and `j_set` with no error branch. -/
theorem c8_nan_propagates (lat long today : ℝ)
    (h : cos (toRadians lat) * cos (toRadians (delta_of long today)) = 0 ∨
        acos_arg lat long today < -1 ∨ 1 < acos_arg lat long today) :
    hour_angleF lat (delta_of long today) = none ∧
      get_sunrise_sunsetF lat long today = (none, none) := by
  have hna : hour_angleF lat (delta_of long today) = none := by
    unfold hour_angleF
    rw [if_neg]
    intro hcond
    rcases h with h0 | h1 | h2
    · exact hcond.1 h0
    · exact absurd hcond.2.1 (not_le.2 h1)
    · exact absurd hcond.2.2 (not_le.2 h2)
  refine ⟨hna, ?_⟩
  unfold get_sunrise_sunsetF
  rw [hna]

/-- Witness for C8 at `lat = 90`, `long = 0`, `today = 2451545`: at the pole
`cos (toRadians 90) = cos (π/2) = 0`, so the denominator vanishes. -/
theorem c8_nan_propagates_witness :
    hour_angleF 90 (delta_of 0 2451545) = none ∧
      get_sunrise_sunsetF 90 0 2451545 = (none, none) :=
  c8_nan_propagates 90 0 2451545 (Or.inl (by
    have h : toRadians (90 : ℝ) = π / 2 := by
      unfold toRadians
      ring
    rw [h, cos_pi_div_two, zero_mul]))

/-! ### Elementary numeric bounds for the trigonometric evaluations -/

theorem sin_mem_of_mem {x a b : ℝ} (ha : 0 < a) (hax : a ≤ x) (hxb : x ≤ b) (hb : b ≤ 1) :
    a - a ^ 3 / 4 < sin x ∧ sin x ≤ b := by
  have hpi2 : (1 : ℝ) < π / 2 := by
    have := pi_gt_d6
    linarith
  constructor
  · calc a - a ^ 3 / 4 < sin a := sin_gt_sub_cube ha (by linarith)
      _ ≤ sin x := by
        rcases eq_or_lt_of_le hax with h | h
        · rw [h]
        · exact (strictMonoOn_sin ⟨by linarith, by linarith⟩ ⟨by linarith, by linarith⟩ h).le
  · have hx0 : 0 < x := lt_of_lt_of_le ha hax
    calc sin x ≤ x := (sin_lt hx0).le
      _ ≤ b := hxb

theorem cos_mem_of_mem {x b : ℝ} (hx0 : 0 ≤ x) (hxb : x ≤ b) (hb : b ≤ 1) :
    1 - b ^ 2 / 2 - b ^ 4 * (5 / 96) ≤ cos x ∧ cos x ≤ 1 := by
  have habs : |x| ≤ 1 := by
    rw [abs_of_nonneg hx0]
    linarith
  have h := abs_le.1 (cos_bound habs)
  have hx2 : x ^ 2 ≤ b ^ 2 := by nlinarith
  have hx4 : x ^ 4 ≤ b ^ 4 := by nlinarith
  have habs4 : |x| ^ 4 = x ^ 4 := by
    rw [abs_of_nonneg hx0]
  constructor
  · rw [habs4] at h
    nlinarith [h.1]
  · exact cos_le_one x

theorem sin_add_three_pi_div_two (x : ℝ) : sin (x + 3 * (π / 2)) = -cos x := by
  have h : x + 3 * (π / 2) = x + π / 2 + π := by ring
  rw [h, sin_add_pi, sin_add_pi_div_two]

theorem toRadians_toDegrees (x : ℝ) : toRadians (toDegrees x) = x := by
  unfold toRadians toDegrees
  field_simp

theorem toRadians_delta_of (long today : ℝ) :
    toRadians (delta_of long today) =
      arcsin (sin (toRadians (lambda_of long today)) * sin (toRadians 23.4397)) := by
  unfold delta_of declination_of_the_sun
  rw [toRadians_toDegrees]

theorem sin_toRadians_delta_of (long today : ℝ) :
    sin (toRadians (delta_of long today)) =
      sin (toRadians (lambda_of long today)) * sin (toRadians 23.4397) := by
  rw [toRadians_delta_of]
  apply sin_arcsin
  · nlinarith [sin_le_one (toRadians (lambda_of long today)),
      neg_one_le_sin (toRadians (lambda_of long today)),
      sin_le_one (toRadians (23.4397 : ℝ)), neg_one_le_sin (toRadians (23.4397 : ℝ))]
  · nlinarith [sin_le_one (toRadians (lambda_of long today)),
      neg_one_le_sin (toRadians (lambda_of long today)),
      sin_le_one (toRadians (23.4397 : ℝ)), neg_one_le_sin (toRadians (23.4397 : ℝ))]

/-! ### Evaluation of the chain at `long = 0`, `today = 2451545` -/

theorem normalized_date_eval : normalized_date 2451545 = 1 := by
  unfold normalized_date
  have h : (⌈(2451545 : ℝ) - 2451545.0 + 0.0008⌉ : ℤ) = 1 := by
    rw [Int.ceil_eq_iff]
    constructor
    · norm_num
    · norm_num
  rw [h]
  norm_num

theorem j_star_eval : j_star_of 0 2451545 = 1 := by
  unfold j_star_of mean_solar_time
  rw [normalized_date_eval]
  norm_num

theorem m_eval : m_of 0 2451545 = 358.51470028 := by
  unfold m_of solar_mean_anomaly
  rw [j_star_eval]
  rw [show (357.5291 + 0.98560028 * (1 : ℝ)) = 358.51470028 by norm_num]
  exact rrem_eq_self (by norm_num) (by norm_num)

theorem sin_m_eval :
    sin (toRadians 358.51470028) = -sin (toRadians 1.48529972) := by
  have h : toRadians (358.51470028 : ℝ) = -(toRadians 1.48529972) + 2 * π := by
    unfold toRadians
    ring
  rw [h, sin_add_two_pi, sin_neg]

theorem sin_2m_eval :
    sin (2 * toRadians 358.51470028) = -sin (2 * toRadians 1.48529972) := by
  have h : 2 * toRadians (358.51470028 : ℝ) =
      -(2 * toRadians 1.48529972) + 2 * π + 2 * π := by
    unfold toRadians
    ring
  rw [h, sin_add_two_pi, sin_add_two_pi, sin_neg]

theorem sin_3m_eval :
    sin (3 * toRadians 358.51470028) = -sin (3 * toRadians 1.48529972) := by
  have h : 3 * toRadians (358.51470028 : ℝ) =
      -(3 * toRadians 1.48529972) + 2 * π + 2 * π + 2 * π := by
    unfold toRadians
    ring
  rw [h, sin_add_two_pi, sin_add_two_pi, sin_add_two_pi, sin_neg]

theorem u_bounds : 0.0259233 ≤ toRadians 1.48529972 ∧ toRadians 1.48529972 ≤ 0.0259234 := by
  unfold toRadians
  constructor
  · nlinarith [pi_gt_d6]
  · nlinarith [pi_lt_d6]

theorem sin_u_bounds : 0.0259 ≤ sin (toRadians 1.48529972) ∧
    sin (toRadians 1.48529972) ≤ 0.0260 := by
  have hu := u_bounds
  have h := sin_mem_of_mem (a := 0.0259233) (b := 0.0259234) (by norm_num) hu.1 hu.2 (by norm_num)
  constructor
  · nlinarith [h.1]
  · linarith [h.2]

theorem sin_2u_bounds : 0.0518 ≤ sin (2 * toRadians 1.48529972) ∧
    sin (2 * toRadians 1.48529972) ≤ 0.0519 := by
  have hu := u_bounds
  have h := sin_mem_of_mem (x := 2 * toRadians 1.48529972) (a := 0.0518466) (b := 0.0518468)
    (by norm_num) (by linarith [hu.1]) (by linarith [hu.2]) (by norm_num)
  constructor
  · nlinarith [h.1]
  · linarith [h.2]

theorem sin_3u_bounds : 0.0776 ≤ sin (3 * toRadians 1.48529972) ∧
    sin (3 * toRadians 1.48529972) ≤ 0.0778 := by
  have hu := u_bounds
  have h := sin_mem_of_mem (x := 3 * toRadians 1.48529972) (a := 0.0777699) (b := 0.0777702)
    (by norm_num) (by linarith [hu.1]) (by linarith [hu.2]) (by norm_num)
  constructor
  · nlinarith [h.1]
  · linarith [h.2]

theorem c_of_eval : c_of 0 2451545 =
    -(1.9148 * sin (toRadians 1.48529972)) - 0.02 * sin (2 * toRadians 1.48529972) -
      0.0003 * sin (3 * toRadians 1.48529972) := by
  unfold c_of equation_of_the_center
  rw [m_eval]
  simp only [sin_m_eval, sin_2m_eval, sin_3m_eval]
  ring

theorem c_bounds : -0.06 ≤ c_of 0 2451545 ∧ c_of 0 2451545 ≤ -0.04 := by
  rw [c_of_eval]
  have h1 := sin_u_bounds
  have h2 := sin_2u_bounds
  have h3 := sin_3u_bounds
  constructor
  · linarith
  · linarith

theorem lambda_eval : lambda_of 0 2451545 = 281.45190028 + c_of 0 2451545 := by
  unfold lambda_of ecliptic_longitude
  rw [m_eval]
  have hc := c_bounds
  have h : (358.51470028 : ℝ) + c_of 0 2451545 + 180 + 102.9372 =
      641.45190028 + c_of 0 2451545 := by ring
  rw [h]
  rw [rrem_shift_one (by norm_num) (by linarith [hc.1]) (by linarith [hc.2])]
  ring

theorem sin_lambda_bound : sin (toRadians (lambda_of 0 2451545)) ≤ -0.97 := by
  rw [lambda_eval]
  have hc := c_bounds
  have hid : toRadians (281.45190028 + c_of 0 2451545) =
      toRadians (11.45190028 + c_of 0 2451545) + 3 * (π / 2) := by
    unfold toRadians
    ring
  rw [hid, sin_add_three_pi_div_two]
  have hx1 : 0 ≤ toRadians (11.45190028 + c_of 0 2451545) := by
    unfold toRadians
    nlinarith [pi_gt_d6]
  have hx2 : toRadians (11.45190028 + c_of 0 2451545) ≤ 0.2 := by
    unfold toRadians
    nlinarith [pi_lt_d6, pi_gt_d6]
  have h := cos_mem_of_mem hx1 hx2 (by norm_num)
  nlinarith [h.1]

theorem sin_e_bounds : 0.35 ≤ sin (toRadians 23.4397) ∧ sin (toRadians 23.4397) ≤ 0.41 := by
  have h1 : (0.409 : ℝ) ≤ toRadians 23.4397 := by
    unfold toRadians
    nlinarith [pi_gt_d6]
  have h2 : toRadians (23.4397 : ℝ) ≤ 0.40911 := by
    unfold toRadians
    nlinarith [pi_lt_d6]
  have h := sin_mem_of_mem (a := 0.409) (b := 0.40911) (by norm_num) h1 h2 (by norm_num)
  constructor
  · nlinarith [h.1]
  · linarith [h.2]

theorem sdelta_bounds : -0.41 ≤ sin (toRadians (delta_of 0 2451545)) ∧
    sin (toRadians (delta_of 0 2451545)) ≤ -0.33 := by
  rw [sin_toRadians_delta_of]
  have hl := sin_lambda_bound
  have hl1 : -1 ≤ sin (toRadians (lambda_of 0 2451545)) := neg_one_le_sin _
  have he := sin_e_bounds
  constructor
  · nlinarith
  · nlinarith

theorem cdelta_bounds : 0.9 ≤ cos (toRadians (delta_of 0 2451545)) ∧
    cos (toRadians (delta_of 0 2451545)) ≤ 1 := by
  have hnn : 0 ≤ cos (toRadians (delta_of 0 2451545)) := by
    rw [toRadians_delta_of]
    exact cos_arcsin_nonneg _
  have hsq := sin_sq_add_cos_sq (toRadians (delta_of 0 2451545))
  have hs := sdelta_bounds
  constructor
  · nlinarith [sq_nonneg (cos (toRadians (delta_of 0 2451545)) - 0.9)]
  · exact cos_le_one _

theorem s1_bounds : -0.015 ≤ sin (toRadians (-0.833)) ∧ sin (toRadians (-0.833)) < 0 := by
  have h : toRadians (-0.833 : ℝ) = -(toRadians 0.833) := by
    unfold toRadians
    ring
  rw [h, sin_neg]
  have h1 : (0.0145 : ℝ) ≤ toRadians 0.833 := by
    unfold toRadians
    nlinarith [pi_gt_d6]
  have h2 : toRadians (0.833 : ℝ) ≤ 0.0146 := by
    unfold toRadians
    nlinarith [pi_lt_d6]
  have hs := sin_mem_of_mem (a := 0.0145) (b := 0.0146) (by norm_num) h1 h2 (by norm_num)
  constructor
  · linarith [hs.2]
  · nlinarith [hs.1]

theorem sin89_bound : 0.99 ≤ sin (toRadians 89) := by
  have h : toRadians (89 : ℝ) = π / 2 - toRadians 1 := by
    unfold toRadians
    ring
  rw [h, sin_pi_div_two_sub]
  have h1 : 0 ≤ toRadians (1 : ℝ) := by
    unfold toRadians
    positivity
  have h2 : toRadians (1 : ℝ) ≤ 0.0175 := by
    unfold toRadians
    nlinarith [pi_lt_d6]
  have hc := cos_mem_of_mem h1 h2 (by norm_num)
  nlinarith [hc.1]

theorem cos89_bounds : 0 < cos (toRadians 89) ∧ cos (toRadians 89) ≤ 0.0175 := by
  have h : toRadians (89 : ℝ) = π / 2 - toRadians 1 := by
    unfold toRadians
    ring
  rw [h, cos_pi_div_two_sub]
  have h1 : (0.017 : ℝ) ≤ toRadians 1 := by
    unfold toRadians
    nlinarith [pi_gt_d6]
  have h2 : toRadians (1 : ℝ) ≤ 0.0175 := by
    unfold toRadians
    nlinarith [pi_lt_d6]
  have hs := sin_mem_of_mem (a := 0.017) (b := 0.0175) (by norm_num) h1 h2 (by norm_num)
  constructor
  · nlinarith [hs.1]
  · linarith [hs.2]

theorem cos_lat_pos {lat : ℝ} (h0 : 0 ≤ lat) (h89 : lat ≤ 89) : 0 < cos (toRadians lat) := by
  have hpos : (0 : ℝ) < π / 180 := by positivity
  have hlow : 0 ≤ lat * (π / 180) := mul_nonneg h0 hpos.le
  have hupp : lat * (π / 180) ≤ 89 * (π / 180) := mul_le_mul_of_nonneg_right h89 hpos.le
  apply cos_pos_of_mem_Ioo
  rw [mem_Ioo]
  unfold toRadians
  constructor
  · linarith [pi_pos]
  · linarith [pi_pos]

theorem acos_arg_continuousOn :
    ContinuousOn (fun lat => acos_arg lat 0 2451545) (Icc 0 89) := by
  unfold acos_arg hour_angle_arg
  apply ContinuousOn.div
  · apply Continuous.continuousOn
    unfold toRadians
    fun_prop
  · apply Continuous.continuousOn
    unfold toRadians
    fun_prop
  · intro x hx
    have h1 := cos_lat_pos hx.1 hx.2
    have h2 : 0 < cos (toRadians (delta_of 0 2451545)) := by linarith [cdelta_bounds.1]
    exact (mul_pos h1 h2).ne'

theorem acos_arg_zero_eval : acos_arg 0 0 2451545 =
    sin (toRadians (-0.833)) / cos (toRadians (delta_of 0 2451545)) := by
  unfold acos_arg hour_angle_arg
  rw [show toRadians (0 : ℝ) = 0 by unfold toRadians; ring, sin_zero, cos_zero]
  rw [zero_mul, sub_zero, one_mul]

theorem exists_acos_arg_one : ∃ lat ∈ Icc (0 : ℝ) 89, acos_arg lat 0 2451545 = 1 := by
  have hmem : (1 : ℝ) ∈ Icc (acos_arg 0 0 2451545) (acos_arg 89 0 2451545) := by
    constructor
    · rw [acos_arg_zero_eval]
      have := div_neg_of_neg_of_pos s1_bounds.2
        (lt_of_lt_of_le (by norm_num) cdelta_bounds.1)
      linarith
    · have hz : acos_arg 89 0 2451545 =
          (sin (toRadians (-0.833)) -
              sin (toRadians 89) * sin (toRadians (delta_of 0 2451545))) /
            (cos (toRadians 89) * cos (toRadians (delta_of 0 2451545))) := rfl
      rw [hz]
      have hs1 := s1_bounds
      have hsd := sdelta_bounds
      have hcd := cdelta_bounds
      have hs89 := sin89_bound
      have hs89u : sin (toRadians 89) ≤ 1 := sin_le_one _
      have hc89 := cos89_bounds
      have hden : 0 < cos (toRadians 89) * cos (toRadians (delta_of 0 2451545)) :=
        mul_pos hc89.1 (by linarith [hcd.1])
      rw [le_div_iff₀ hden]
      have hnum : (0.31 : ℝ) ≤ sin (toRadians (-0.833)) -
          sin (toRadians 89) * sin (toRadians (delta_of 0 2451545)) := by
        nlinarith
      have hden2 : cos (toRadians 89) * cos (toRadians (delta_of 0 2451545)) ≤ 0.0175 := by
        nlinarith
      linarith
  have h := intermediate_value_Icc (by norm_num : (0 : ℝ) ≤ 89) acos_arg_continuousOn hmem
  obtain ⟨lat, hlat, heq⟩ := h
  exact ⟨lat, hlat, heq⟩

theorem get_sunrise_sunset_fst (lat long today : ℝ) :
    (get_sunrise_sunset lat long today).1 =
      transit_of long today - hour_angle lat (delta_of long today) / 360 := rfl

theorem get_sunrise_sunset_snd (lat long today : ℝ) :
    (get_sunrise_sunset lat long today).2 =
      transit_of long today + hour_angle lat (delta_of long today) / 360 := rfl

/-- C2 counterexample: the claim quantifies over all valid inputs whose `acos`
argument lies in the closed interval `[-1, 1]`, but at `long = 0`,
`today = 2451545` there is a latitude in `[0, 89]` (obtained by the
intermediate value theorem) at which the argument equals exactly `1`; there
the hour angle is `0`, so `j_rise = j_transit = j_set` and the strict
ordering and the positivity of `j_set - j_rise` both fail. -/
theorem c2_ordering_counterexample :
    ¬ (∀ lat long today : ℝ, -90 ≤ lat → lat ≤ 90 → -180 ≤ long → long ≤ 180 →
        -1 ≤ acos_arg lat long today → acos_arg lat long today ≤ 1 →
        ((get_sunrise_sunset lat long today).1 < transit_of long today ∧
          transit_of long today < (get_sunrise_sunset lat long today).2 ∧
          0 < (get_sunrise_sunset lat long today).2 - (get_sunrise_sunset lat long today).1 ∧
          (get_sunrise_sunset lat long today).2 - (get_sunrise_sunset lat long today).1 < 1)) := by
  intro hcl
  obtain ⟨lat, hlat, harg⟩ := exists_acos_arg_one
  have h := hcl lat 0 2451545 (by linarith [hlat.1]) (by linarith [hlat.2]) (by norm_num)
    (by norm_num) (by rw [harg]; norm_num) (by rw [harg])
  have hzero : hour_angle lat (delta_of 0 2451545) = 0 := by
    unfold hour_angle
    have he : hour_angle_arg lat (delta_of 0 2451545) = 1 := harg
    rw [he, arccos_one]
    unfold toDegrees
    ring
  have h3 := h.2.2.1
  rw [get_sunrise_sunset_fst, get_sunrise_sunset_snd, hzero] at h3
  linarith

/-- C2 amended: for all valid inputs whose `acos` argument lies strictly
inside `(-1, 1)`, the pair satisfies `j_rise < j_transit < j_set` and
`0 < j_set - j_rise < 1`. -/
theorem c2_ordering_amended (lat long today : ℝ)
    (hlat1 : -90 ≤ lat) (hlat2 : lat ≤ 90) (hlong1 : -180 ≤ long) (hlong2 : long ≤ 180)
    (h1 : -1 < acos_arg lat long today) (h2 : acos_arg lat long today < 1) :
    (get_sunrise_sunset lat long today).1 < transit_of long today ∧
      transit_of long today < (get_sunrise_sunset lat long today).2 ∧
      0 < (get_sunrise_sunset lat long today).2 - (get_sunrise_sunset lat long today).1 ∧
      (get_sunrise_sunset lat long today).2 - (get_sunrise_sunset lat long today).1 < 1 := by
  have harc1 : 0 < arccos (acos_arg lat long today) := arccos_pos.2 h2
  have harc2 : arccos (acos_arg lat long today) < π := by
    rw [arccos_eq_pi_div_two_sub_arcsin]
    have := neg_pi_div_two_lt_arcsin.2 h1
    linarith
  have hw : hour_angle lat (delta_of long today) =
      arccos (acos_arg lat long today) * (180 / π) := rfl
  have hpi : (0 : ℝ) < 180 / π := by positivity
  have hw1 : 0 < hour_angle lat (delta_of long today) := by
    rw [hw]
    exact mul_pos harc1 hpi
  have hw2 : hour_angle lat (delta_of long today) < 180 := by
    rw [hw]
    have h := mul_lt_mul_of_pos_right harc2 hpi
    calc arccos (acos_arg lat long today) * (180 / π) < π * (180 / π) := h
      _ = 180 := by
        field_simp
  rw [get_sunrise_sunset_fst, get_sunrise_sunset_snd]
  refine ⟨by linarith, by linarith, by linarith, by linarith⟩

/-- Witness for the amended C2 at `lat = 0`, `long = 0`, `today = 2451545`,
where the `acos` argument lies strictly inside `(-1, 1)`. -/
theorem c2_ordering_amended_witness :
    (get_sunrise_sunset 0 0 2451545).1 < transit_of 0 2451545 ∧
      transit_of 0 2451545 < (get_sunrise_sunset 0 0 2451545).2 ∧
      0 < (get_sunrise_sunset 0 0 2451545).2 - (get_sunrise_sunset 0 0 2451545).1 ∧
      (get_sunrise_sunset 0 0 2451545).2 - (get_sunrise_sunset 0 0 2451545).1 < 1 := by
  have hcd := cdelta_bounds
  have hs1 := s1_bounds
  have hpos : (0 : ℝ) < cos (toRadians (delta_of 0 2451545)) := by linarith [hcd.1]
  have harg1 : -1 < acos_arg 0 0 2451545 := by
    rw [acos_arg_zero_eval, lt_div_iff₀ hpos]
    nlinarith
  have harg2 : acos_arg 0 0 2451545 < 1 := by
    rw [acos_arg_zero_eval]
    have := div_neg_of_neg_of_pos hs1.2 hpos
    linarith
  exact c2_ordering_amended 0 0 2451545 (by norm_num) (by norm_num) (by norm_num) (by norm_num)
    harg1 harg2
